import Mathlib

/- A shallow embedding of src/httpd-epoll.c, an event-driven HTTP/1.1 server
   built on epoll.  Byte buffers are modelled as `List Char` holding the
   contents of the C char arrays (the NUL terminator that the driver writes
   after the bytes it read is not part of the list; an embedded NUL byte is an
   ordinary list element); C strings handed around as whole values are `String`. -/

/-- The NUL byte: terminates C strings and is written into the request buffer
by `parse_http`. -/
def NUL : Char := '\x00'

/-- The `BUFFER_SIZE` constant of httpd-epoll.c (line 16). -/
def BUFFER_SIZE : Nat := 4096

/-- Guard of the first scan loop in `parse_http` (line 105):
`*p && *p != ' '` keeps scanning while the byte is neither NUL nor a space. -/
def notDelim1 (c : Char) : Bool := c != NUL && c != ' '

/-- Guard of the second scan loop in `parse_http` (line 115):
`*p && *p != ' ' && *p != '\r' && *p != '\n'` keeps scanning while the byte is
none of NUL, space, CR, LF. -/
def notDelim2 (c : Char) : Bool := c != NUL && c != ' ' && c != '\r' && c != '\n'

/-- `struct sHttpRequest` (lines 19-22): a method token and a target token. -/
structure httpreq where
  method : String
  url : String
deriving DecidableEq

/-- `parse_http` (lines 95-120).  The first loop scans to the first space,
also stopping at a NUL; if the byte at the stop position is not a space the
function frees the request and returns NULL (modelled as `none`).  Otherwise
the method is the scanned prefix, truncated by `strncpy` to 15 bytes, and the
target is scanned from the byte after the space up to the next space, CR, LF
or NUL (or the buffer end), truncated to 1023 bytes.  A NULL from a failed
`malloc` (indistinguishable from a parse failure at the caller) is not
modelled. -/
def parse_http (str : List Char) : Option httpreq :=
  match str.dropWhile notDelim1 with
  | [] => none
  | c :: rest =>
    if c = ' ' then
      some ⟨((str.takeWhile notDelim1).take 15).asString,
            ((rest.takeWhile notDelim2).take 1023).asString⟩
    else none

/-- The contents of the caller's buffer after `parse_http` returns.  On the
success path the C code overwrites the space ending the method with a NUL
(line 110, `*p = 0`) and overwrites the byte ending the target with a NUL
(line 116); when the target runs to the buffer end that second write lands on
the existing NUL terminator, which is outside the modelled list, so the list
is unchanged there.  On the failure path no byte is written. -/
def parse_http_buffer (str : List Char) : List Char :=
  match str.dropWhile notDelim1 with
  | [] => str
  | c :: rest =>
    if c = ' ' then
      str.takeWhile notDelim1 ++ (NUL :: (rest.takeWhile notDelim2 ++
        (match rest.dropWhile notDelim2 with
         | [] => []
         | _ :: ds => NUL :: ds)))
    else str

/-- A status line plus headers and body, the arguments each call site passes
to `http_send_response` (lines 123-142). -/
structure HttpResponse where
  code : Nat
  status : String
  contentType : String
  body : String
deriving DecidableEq

/-- The 400 response of `handle_request` (lines 150-151). -/
def resp400 : HttpResponse := ⟨400, "Bad Request", "text/plain", "Malformed request"⟩

/-- The 200 HTML response (lines 160-161). -/
def resp200html : HttpResponse := ⟨200, "OK", "text/html", "<html><h4>Hello World!!</h4></html>"⟩

/-- The 200 JSON response (lines 164-165). -/
def resp200json : HttpResponse := ⟨200, "OK", "application/json", "\x7b\"message\": \"Hello World!!!\"\x7d"⟩

/-- The 404 response (lines 168-169). -/
def resp404 : HttpResponse := ⟨404, "Not Found", "text/plain", "File not found!"⟩

/-- The 405 response (lines 172-173). -/
def resp405 : HttpResponse := ⟨405, "Method Not Allowed", "text/plain", "Only GET supported"⟩

/-- The dispatch on the parsed request inside `handle_request` (lines
158-174): `strcmp` against "GET", then `strcmp` of the target against
"/index.html", "/" and "/data.json". -/
def route (method url : String) : HttpResponse :=
  if method = "GET" then
    if url = "/index.html" ∨ url = "/" then resp200html
    else if url = "/data.json" then resp200json
    else resp404
  else resp405

/-- `handle_request` (lines 145-177): parse the buffer; on NULL answer 400,
otherwise dispatch on the parsed method and target.  The printf logging and
the write itself are side effects outside this value. -/
def handle_request (request : List Char) : HttpResponse :=
  match parse_http request with
  | none => resp400
  | some req => route req.method req.url

/-- The text `snprintf` formats in `http_send_response` (lines 131-139);
`Content-Length` is `strlen(body)`, the byte length of the body. -/
def http_response_string (code : Nat) (status contentType body : String) : String :=
  "HTTP/1.1 " ++ toString code ++ " " ++ status ++ "\r\n" ++
  "Content-Type: " ++ contentType ++ "\r\n" ++
  "Content-Length: " ++ toString body.utf8ByteSize ++ "\r\n" ++
  "Connection: close" ++ "\r\n" ++
  "\r\n" ++ body

/-- The bytes `http_send_response` writes to the socket: `snprintf` formats
into a BUFFER_SIZE stack buffer, so the formatted text is written exactly
when it fits beside the terminating NUL (at most BUFFER_SIZE - 1 bytes).  A
longer response would make `write` read past the truncated text (undefined
bytes, never reached by this program's fixed bodies); that case is left as
`none`. -/
def http_send_response (code : Nat) (status contentType body : String) : Option String :=
  let s := http_response_string code status contentType body
  if s.utf8ByteSize ≤ BUFFER_SIZE - 1 then some s else none

/-- The wire bytes produced for a structured response. -/
def responseBytes (r : HttpResponse) : Option String :=
  http_send_response r.code r.status r.contentType r.body

/-- Outcome of one `read` on a non-blocking socket: some bytes, end of
stream (`read` returned 0), would-block (`-1` with EAGAIN/EWOULDBLOCK), or
another error. -/
inductive ReadResult where
  | data : List Char → ReadResult
  | eof : ReadResult
  | wouldBlock : ReadResult
  | err : ReadResult
deriving DecidableEq

/-- Kernel-side view of one client socket: the bytes currently available to
read, and whether the peer has already closed (so that draining the pending
bytes yields end-of-stream rather than would-block). -/
structure SocketState where
  pending : List Char
  closedByPeer : Bool
deriving DecidableEq

/-- One `read(client_fd, buffer, BUFFER_SIZE - 1)` (line 228) on a
non-blocking socket, modelled as returning everything available up to
BUFFER_SIZE - 1 bytes. -/
def do_read (s : SocketState) : ReadResult × SocketState :=
  if s.pending.isEmpty then
    (if s.closedByPeer then ReadResult.eof else ReadResult.wouldBlock, s)
  else
    (ReadResult.data (s.pending.take (BUFFER_SIZE - 1)),
     ⟨s.pending.drop (BUFFER_SIZE - 1), s.closedByPeer⟩)

/-- What one invocation of `handle_client_data` did to its connection. -/
structure DriverResult where
  response : Option HttpResponse
  numReads : Nat
  deregistered : Bool
  closed : Bool
deriving DecidableEq

/-- `handle_client_data` (lines 223-252): a single `read`; on `bytes_read <= 0`
(end of stream, would-block, or error alike) remove the fd from epoll and
close it without a response; on data, NUL-terminate, answer via
`handle_request`, then remove the fd from epoll and close it. -/
def handle_client_data (s : SocketState) : DriverResult :=
  match (do_read s).1 with
  | ReadResult.data bytes => ⟨some (handle_request bytes), 1, true, true⟩
  | _ => ⟨none, 1, true, true⟩

/-- The epoll event bits the main loop inspects (lines 315, 327):
`err` stands for `EPOLLERR | EPOLLHUP`, `readable` for `EPOLLIN`. -/
structure EventFlags where
  err : Bool
  readable : Bool
deriving DecidableEq

/-- One connection returned by `accept` inside `accept_connections`
(lines 192-218): its fresh fd, whether `set_nonblocking` succeeded (line 205)
and whether `epoll_ctl(EPOLL_CTL_ADD)` succeeded (line 215). -/
structure AcceptedConn where
  fd : Nat
  nonblockOk : Bool
  registerOk : Bool
deriving DecidableEq

/-- One entry of an `epoll_wait` batch (line 304), as the main loop
dispatches it (lines 311-330): either the listening fd is ready (carrying the
burst of pending connections `accept` will yield), or a client fd is ready
(carrying the kernel-side state its `read` calls will drain). -/
inductive LoopEvent where
  | serverEvent : EventFlags → List AcceptedConn → LoopEvent
  | clientEvent : Nat → EventFlags → SocketState → LoopEvent
deriving DecidableEq

/-- The observable handle operations a dispatch performs, in program order:
`epoll_ctl(EPOLL_CTL_DEL)`, `close`, and the response `write`. -/
inductive Op where
  | deregister : Nat → Op
  | closeFd : Nat → Op
  | writeResp : Nat → HttpResponse → Op
deriving DecidableEq

/-- The process-wide state the loop mutates: the listening fd, whether it is
still registered with epoll, the set of client fds registered with epoll
(the Readiness Registry), and the set of accepted-and-still-open client fds
(the live Connection entries). -/
structure LoopState where
  serverFd : Nat
  serverRegistered : Bool
  registered : Finset Nat
  openConns : Finset Nat

/-- The state after `srv_init` and the `epoll_ctl` add of the server fd
(lines 268-296): the listening fd registered, no client registrations. -/
def initState (sfd : Nat) : LoopState :=
  ⟨sfd, true, ∅, ∅⟩

/-- One iteration of the accept loop (lines 187-219): on a
`set_nonblocking` failure close the fd and continue; on an `epoll_ctl` add
failure close the fd; otherwise the fd is registered and the connection is
live. -/
def acceptOne (st : LoopState) (c : AcceptedConn) : LoopState × List Op :=
  if c.nonblockOk then
    if c.registerOk then
      ({ st with registered := insert c.fd st.registered,
                 openConns := insert c.fd st.openConns }, [])
    else (st, [Op.closeFd c.fd])
  else (st, [Op.closeFd c.fd])

/-- `accept_connections` (lines 181-220): drain every pending connection. -/
def acceptAll : LoopState → List AcceptedConn → LoopState × List Op
  | st, [] => (st, [])
  | st, c :: cs =>
    let r1 := acceptOne st c
    let r2 := acceptAll r1.1 cs
    (r2.1, r1.2 ++ r2.2)

/-- The handle operations of one `handle_client_data` call (lines 223-252):
on data, write the response (inside `handle_request`), then
`epoll_ctl(EPOLL_CTL_DEL)`, then `close`; on anything else, delete then
close with no write. -/
def clientTrace (fd : Nat) (s : SocketState) : List Op :=
  match (do_read s).1 with
  | ReadResult.data bytes =>
      [Op.writeResp fd (handle_request bytes), Op.deregister fd, Op.closeFd fd]
  | _ => [Op.deregister fd, Op.closeFd fd]

/-- One dispatch of the main loop body (lines 311-330): an
`EPOLLERR | EPOLLHUP` event deletes and closes the fd (this branch is checked
first and applies to the listening fd too); otherwise the listening fd goes
to `accept_connections`, and a client fd with `EPOLLIN` goes to
`handle_client_data`. -/
def loopStep (st : LoopState) : LoopEvent → LoopState × List Op
  | LoopEvent.serverEvent flags pending =>
    if flags.err then
      ({ st with serverRegistered := false },
       [Op.deregister st.serverFd, Op.closeFd st.serverFd])
    else acceptAll st pending
  | LoopEvent.clientEvent fd flags sock =>
    if flags.err then
      ({ st with registered := st.registered.erase fd,
                 openConns := st.openConns.erase fd },
       [Op.deregister fd, Op.closeFd fd])
    else if flags.readable then
      ({ st with registered := st.registered.erase fd,
                 openConns := st.openConns.erase fd },
       clientTrace fd sock)
    else (st, [])

/-- The event loop (lines 301-331) over a finite schedule of readiness
events, accumulating the handle-operation trace. -/
def runLoop : LoopState → List LoopEvent → LoopState × List Op
  | st, [] => (st, [])
  | st, e :: es =>
    let r1 := loopStep st e
    let r2 := runLoop r1.1 es
    (r2.1, r1.2 ++ r2.2)

/-- Whether an event makes `handle_client_data` or the error branch retire
the client fd `fd`: any client event for `fd` flagged with an error/hangup or
with readability (both paths deregister and close). -/
def isClosing (fd : Nat) : Option LoopEvent → Bool
  | some (LoopEvent.clientEvent fd2 flags _) => fd2 == fd && (flags.err || flags.readable)
  | _ => false

/-- The fds an accept burst actually registers: those whose non-blocking
setup and epoll registration both succeed. -/
def successFds (p : List AcceptedConn) : List Nat :=
  (p.filter (fun c => c.nonblockOk && c.registerOk)).map (fun c => c.fd)

/-- The fds an event registers (non-empty only for a server event). -/
def acceptedFds : LoopEvent → List Nat
  | LoopEvent.serverEvent _ pending => successFds pending
  | _ => []

/-- `acceptedFds` lifted to an optional event. -/
def acceptedAt (o : Option LoopEvent) : List Nat :=
  o.elim [] acceptedFds

/-- Whether an event is an error/hangup on the listening fd (the one case
that retires the listening handle itself). -/
def srvErrEvent : LoopEvent → Bool
  | LoopEvent.serverEvent flags _ => flags.err
  | _ => false

/-- In the trace `ops`, every `close` of `fd` is preceded by a `deregister`
of `fd`. -/
def deregBeforeClose (ops : List Op) (fd : Nat) : Prop :=
  ∀ j, ops.get? j = some (Op.closeFd fd) →
    ∃ i, i < j ∧ ops.get? i = some (Op.deregister fd)

/-- The character class C `isspace` skips at the start of `atoi`. -/
def isCSpace (c : Char) : Bool :=
  c = ' ' || c = '\t' || c = '\n' || c = '\x0b' || c = '\x0c' || c = '\r'

/-- Decimal value of a digit string. -/
def digitsValue (l : List Char) : Nat :=
  l.foldl (fun a c => a * 10 + (c.toNat - 48)) 0

/-- C `atoi` as used on `argv[1]` (line 265): skip leading whitespace, take
an optional sign, then consume leading digits; no digits gives 0.  Overflow
of the C int is undefined behaviour and not modelled (the value is an
unbounded integer). -/
def atoi (s : String) : Int :=
  match s.toList.dropWhile isCSpace with
  | '-' :: rest => - (digitsValue (rest.takeWhile Char.isDigit) : Int)
  | '+' :: rest => (digitsValue (rest.takeWhile Char.isDigit) : Int)
  | cs => (digitsValue (cs.takeWhile Char.isDigit) : Int)

/-- Outcome of the argument-checking phase of `main` (lines 261-265). -/
inductive StartupOutcome where
  | usageExit : StartupOutcome
  | proceed : Int → StartupOutcome
deriving DecidableEq

/-- `main` lines 261-265: with fewer than two argv entries, print the usage
message to stderr and return 1; otherwise continue into `srv_init` with
`atoi(argv[1])` — the port value itself is never inspected. -/
def startup (args : List String) : StartupOutcome :=
  if args.length < 2 then StartupOutcome.usageExit
  else StartupOutcome.proceed (atoi (args.getD 1 ""))

/-- Claim C1 counterexample.  On a Readable event whose read yields
would-block (nothing pending, peer still open), `handle_client_data` does
not leave the connection registered and open: it deregisters the handle and
closes it. -/
theorem c1_counterexample :
    (do_read (SocketState.mk [] false)).1 = ReadResult.wouldBlock ∧
    (handle_client_data (SocketState.mk [] false)).deregistered = true ∧
    (handle_client_data (SocketState.mk [] false)).closed = true := by
  decide

/-- Claim C1, amended: on a Readable event where the read yields a
would-block outcome, the driver writes no response and — exactly as for
end-of-stream or a read error — deregisters the handle from epoll and closes
it; nothing is buffered across events. -/
theorem c1_wouldblock_teardown (s : SocketState)
    (h1 : s.pending = []) (h2 : s.closedByPeer = false) :
    (do_read s).1 = ReadResult.wouldBlock ∧
    handle_client_data s = DriverResult.mk none 1 true true := by
  cases s with
  | mk p c =>
    simp only at h1 h2
    subst h1; subst h2
    decide

/-- Witness for `c1_wouldblock_teardown` at the empty, still-open socket. -/
theorem c1_wouldblock_teardown_witness :
    (do_read (SocketState.mk [] false)).1 = ReadResult.wouldBlock ∧
    handle_client_data (SocketState.mk [] false) = DriverResult.mk none 1 true true :=
  c1_wouldblock_teardown (SocketState.mk [] false) rfl rfl

/-- Claim C2 counterexample.  With a complete 18-byte request pending, the
single read returns data — not would-block, not end-of-stream, and far below
the BUFFER_SIZE - 1 limit — yet the driver performs no further read and has
already closed the connection when it returns control. -/
theorem c2_counterexample :
    (do_read (SocketState.mk ("GET / HTTP/1.1\r\n\r\n".toList) false)).1 =
      ReadResult.data ("GET / HTTP/1.1\r\n\r\n".toList) ∧
    ("GET / HTTP/1.1\r\n\r\n".toList).length = 18 ∧
    18 < BUFFER_SIZE - 1 ∧
    (handle_client_data (SocketState.mk ("GET / HTTP/1.1\r\n\r\n".toList) false)).numReads = 1 ∧
    (handle_client_data (SocketState.mk ("GET / HTTP/1.1\r\n\r\n".toList) false)).closed = true := by
  decide

/-- Claim C2, amended: on every Readable event the driver issues exactly one
read and then tears the connection down; it never loops to drain the handle
until would-block or end-of-stream. -/
theorem c2_single_read (s : SocketState) :
    (handle_client_data s).numReads = 1 ∧
    (handle_client_data s).deregistered = true ∧
    (handle_client_data s).closed = true := by
  unfold handle_client_data
  split <;> exact ⟨rfl, rfl, rfl⟩

/-- Claim C4: the route policy of `handle_request` is a static exact-match
lookup — GET on "/" or "/index.html" gives the canned HTML 200, GET on
"/data.json" gives the canned JSON 200, GET on any other target gives 404,
and any other method gives 405. -/
theorem c4_route_policy :
    route "GET" "/" = resp200html ∧
    route "GET" "/index.html" = resp200html ∧
    route "GET" "/data.json" = resp200json ∧
    (∀ url : String, url ≠ "/" → url ≠ "/index.html" → url ≠ "/data.json" →
      route "GET" url = resp404) ∧
    (∀ method url : String, method ≠ "GET" → route method url = resp405) := by
  refine ⟨rfl, rfl, rfl, ?_, ?_⟩
  · intro url h1 h2 h3
    simp [route, h1, h2, h3]
  · intro method url h
    simp [route, h]

/-- Witness for `c4_route_policy` on the targets "/nope" and method "POST". -/
theorem c4_route_policy_witness :
    route "GET" "/nope" = resp404 ∧ route "POST" "/" = resp405 :=
  ⟨c4_route_policy.2.2.2.1 "/nope" (by decide) (by decide) (by decide),
   c4_route_policy.2.2.2.2 "POST" "/" (by decide)⟩

/-- Claim C10: method matching is an exact byte comparison with "GET"; a
lower-case `get / HTTP/1.1` request is answered 405, and so is every method
that is not byte-for-byte "GET". -/
theorem c10_method_exact :
    handle_request ("get / HTTP/1.1\r\n\r\n".toList) = resp405 ∧
    (∀ url : String, route "get" url = resp405) ∧
    (∀ method url : String, method ≠ "GET" → route method url = resp405) := by
  refine ⟨rfl, ?_, ?_⟩
  · intro url
    simp [route]
  · intro method url h
    simp [route, h]

/-- Witness for `c10_method_exact` at the mixed-case method "Get". -/
theorem c10_method_exact_witness : route "Get" "/" = resp405 :=
  c10_method_exact.2.2 "Get" "/" (by decide)

/-- Claim C9 counterexample.  With the port argument "0" (or "-5") the
argument check does not exit: `main` proceeds into socket setup with that
non-positive value (`atoi` is the only inspection the value gets). -/
theorem c9_counterexample :
    startup ["./httpd-epoll", "0"] = StartupOutcome.proceed 0 ∧
    startup ["./httpd-epoll", "-5"] = StartupOutcome.proceed (-5) := by
  decide

/-- Claim C9, amended: the process exits with the usage message exactly when
fewer than two argv entries are present; otherwise it always proceeds to
socket setup with `atoi(argv[1])`, whatever that value is — the port's sign
and magnitude are never validated. -/
theorem c9_startup (args : List String) :
    (args.length < 2 → startup args = StartupOutcome.usageExit) ∧
    (2 ≤ args.length → startup args = StartupOutcome.proceed (atoi (args.getD 1 ""))) := by
  constructor
  · intro h
    simp [startup, h]
  · intro h
    simp [startup, Nat.not_lt.mpr h]

/-- Witness for `c9_startup`: a missing port argument exits with usage; the
argument "0" proceeds. -/
theorem c9_startup_witness :
    startup ["./httpd-epoll"] = StartupOutcome.usageExit ∧
    startup ["./httpd-epoll", "0"] = StartupOutcome.proceed (atoi "0") :=
  ⟨(c9_startup ["./httpd-epoll"]).1 (by decide),
   (c9_startup ["./httpd-epoll", "0"]).2 (by decide)⟩

/-- Every value `handle_request` can produce is one of the five canned
responses. -/
theorem handle_request_cases (request : List Char) :
    handle_request request = resp400 ∨ handle_request request = resp200html ∨
    handle_request request = resp200json ∨ handle_request request = resp404 ∨
    handle_request request = resp405 := by
  unfold handle_request
  cases parse_http request with
  | none => exact Or.inl rfl
  | some req =>
    unfold route
    by_cases h1 : req.method = "GET"
    · by_cases h2 : req.url = "/index.html" ∨ req.url = "/"
      · simp [h1, h2]
      · by_cases h3 : req.url = "/data.json"
        · simp [h1, h2, h3]
        · simp [h1, h2, h3]
    · simp [h1]

/-- Claim C5: whenever `http_send_response` writes, the bytes are exactly the
status line, `Content-Type`, a `Content-Length` equal to the byte length of
the body, `Connection: close`, a blank line, and the body; every response
`handle_request` produces is written in full; and the response to
`GET / HTTP/1.1` is the 200 HTML response with `Content-Length: 35`, the
exact byte length of the canned HTML body. -/
theorem c5_wire_format :
    (∀ (code : Nat) (status contentType body s : String),
       http_send_response code status contentType body = some s →
       s = "HTTP/1.1 " ++ toString code ++ " " ++ status ++ "\r\n" ++
           "Content-Type: " ++ contentType ++ "\r\n" ++
           "Content-Length: " ++ toString body.utf8ByteSize ++ "\r\n" ++
           "Connection: close" ++ "\r\n" ++ "\r\n" ++ body) ∧
    (∀ request : List Char, ∃ s, responseBytes (handle_request request) = some s) ∧
    responseBytes (handle_request ("GET / HTTP/1.1\r\n\r\n".toList)) =
      some ("HTTP/1.1 200 OK\r\nContent-Type: text/html\r\nContent-Length: 35\r\nConnection: close\r\n\r\n<html><h4>Hello World!!</h4></html>") ∧
    ("<html><h4>Hello World!!</h4></html>" : String).utf8ByteSize = 35 := by
  refine ⟨?_, ?_, rfl, rfl⟩
  · intro code status contentType body s h
    by_cases hle : (http_response_string code status contentType body).utf8ByteSize ≤ BUFFER_SIZE - 1
    · simp only [http_send_response, if_pos hle] at h
      exact (Option.some.inj h).symm
    · simp only [http_send_response, if_neg hle] at h
      exact Option.noConfusion h
  · intro request
    rcases handle_request_cases request with h | h | h | h | h <;> rw [h] <;> exact ⟨_, rfl⟩

/-- Witness for `c5_wire_format` at the concrete 200 HTML response. -/
theorem c5_wire_format_witness :
    ("HTTP/1.1 200 OK\r\nContent-Type: text/html\r\nContent-Length: 35\r\nConnection: close\r\n\r\n<html><h4>Hello World!!</h4></html>" : String) =
    "HTTP/1.1 " ++ toString (200 : Nat) ++ " " ++ "OK" ++ "\r\n" ++
    "Content-Type: " ++ "text/html" ++ "\r\n" ++
    "Content-Length: " ++ toString ("<html><h4>Hello World!!</h4></html>" : String).utf8ByteSize ++ "\r\n" ++
    "Connection: close" ++ "\r\n" ++ "\r\n" ++ "<html><h4>Hello World!!</h4></html>" :=
  c5_wire_format.1 200 "OK" "text/html" "<html><h4>Hello World!!</h4></html>" _ rfl

/-- Claim C6 counterexample.  The method scan runs straight past line
terminators to the first space, so `X\r\nA B` parses successfully with
method `X\r\nA`; and a buffer whose target token runs to the buffer end with
no space or line terminator, `GET /abc`, also parses successfully instead of
failing. -/
theorem c6_counterexample :
    parse_http ("X\r\nA B".toList) = some ⟨"X\r\nA", "B"⟩ ∧
    parse_http ("GET /abc".toList) = some ⟨"GET", "/abc"⟩ := by
  exact ⟨rfl, rfl⟩

/-- Splitting lemma for `parse_http`: on a buffer made of a space-free,
NUL-free prefix, a space, and a remainder, the parse succeeds with the
prefix as method and the scanned remainder as target. -/
theorem parse_http_append_space (pre rest : List Char)
    (h : ∀ c ∈ pre, notDelim1 c = true) :
    parse_http (pre ++ ' ' :: rest) =
      some ⟨(pre.take 15).asString, ((rest.takeWhile notDelim2).take 1023).asString⟩ := by
  have hd : (pre ++ ' ' :: rest).dropWhile notDelim1 = ' ' :: rest := by
    rw [List.dropWhile_append_of_pos h]
    simp [List.dropWhile_cons, notDelim1]
  have ht : (pre ++ ' ' :: rest).takeWhile notDelim1 = pre := by
    rw [List.takeWhile_append_of_pos h]
    simp [List.takeWhile_cons, notDelim1]
  simp [parse_http, hd, ht]

/-- Claim C6, amended: the method token ends at the first space, and the
scan for it passes over CR and LF — it fails exactly when no space occurs
before the buffer end or an embedded NUL; the target token ends at the next
space, CR, LF, NUL or the buffer end, and a missing terminator is not a
failure.  `strncpy` truncates the tokens to 15 and 1023 bytes. -/
theorem c6_parse_tokens :
    (∀ pre rest : List Char, (∀ c ∈ pre, notDelim1 c = true) →
       parse_http (pre ++ ' ' :: rest) =
         some ⟨(pre.take 15).asString, ((rest.takeWhile notDelim2).take 1023).asString⟩) ∧
    (∀ str : List Char, (∀ c ∈ str, notDelim1 c = true) → parse_http str = none) ∧
    (∀ pre rest : List Char, (∀ c ∈ pre, notDelim1 c = true) →
       parse_http (pre ++ NUL :: rest) = none) := by
  refine ⟨?_, ?_, ?_⟩
  · intro pre rest h
    exact parse_http_append_space pre rest h
  · intro str h
    have hd : str.dropWhile notDelim1 = [] := List.dropWhile_eq_nil_iff.mpr h
    simp [parse_http, hd]
  · intro pre rest h
    have hd : (pre ++ NUL :: rest).dropWhile notDelim1 = NUL :: rest := by
      rw [List.dropWhile_append_of_pos h]
      simp [List.dropWhile_cons, notDelim1]
    unfold parse_http
    rw [hd]
    exact if_neg (by decide)

/-- Witness for `c6_parse_tokens`: the method scan passes over `\r\n` in
`X\r\nA B`; `GARBAGE\r\n\r\n` (no space at all) fails; `AB` followed by an
embedded NUL and `C D` fails because the NUL precedes every space. -/
theorem c6_parse_tokens_witness :
    parse_http ("X\r\nA".toList ++ ' ' :: "B".toList) =
      some ⟨("X\r\nA".toList.take 15).asString,
            (("B".toList.takeWhile notDelim2).take 1023).asString⟩ ∧
    parse_http ("GARBAGE\r\n\r\n".toList) = none ∧
    parse_http ("AB".toList ++ NUL :: "C D".toList) = none :=
  ⟨c6_parse_tokens.1 ("X\r\nA".toList) ("B".toList) (by decide),
   c6_parse_tokens.2.1 ("GARBAGE\r\n\r\n".toList) (by decide),
   c6_parse_tokens.2.2 ("AB".toList) ("C D".toList) (by decide)⟩

/-- Claim C8 counterexample.  `parse_http` does not leave its input buffer
unchanged: parsing `GET / HTTP/1.1` overwrites the two token-ending bytes
with NULs. -/
theorem c8_counterexample :
    parse_http_buffer ("GET / HTTP/1.1".toList) ≠ "GET / HTTP/1.1".toList ∧
    parse_http_buffer ("GET / HTTP/1.1".toList) =
      "GET".toList ++ NUL :: "/".toList ++ NUL :: "HTTP/1.1".toList := by
  exact ⟨by decide, by decide⟩

/-- Claim C8, amended: the parser performs no I/O and is deterministic
(equal buffers give equal results), returning a method/target pair or the
explicit failure — but it mutates its input: the delimiter bytes it finds
are overwritten with NUL, so the buffer is left unchanged exactly when the
parse fails. -/
theorem c8_parser_effects :
    (∀ s t : List Char, s = t → parse_http s = parse_http t) ∧
    (∀ str : List Char, parse_http_buffer str = str ↔ parse_http str = none) := by
  constructor
  · intro s t h
    rw [h]
  · intro str
    cases hd : str.dropWhile notDelim1 with
    | nil =>
      have hb : parse_http_buffer str = str := by
        unfold parse_http_buffer
        rw [hd]
      have hp : parse_http str = none := by
        unfold parse_http
        rw [hd]
      simp [hb, hp]
    | cons c rest =>
      by_cases hc : c = ' '
      · subst hc
        have hb : parse_http_buffer str =
            str.takeWhile notDelim1 ++ (NUL :: (rest.takeWhile notDelim2 ++
              (match rest.dropWhile notDelim2 with
               | [] => []
               | _ :: ds => NUL :: ds))) := by
          unfold parse_http_buffer
          rw [hd]
          rfl
        have hp : parse_http str =
            some ⟨((str.takeWhile notDelim1).take 15).asString,
                  ((rest.takeWhile notDelim2).take 1023).asString⟩ := by
          unfold parse_http
          rw [hd]
          rfl
        have hsplit : str = str.takeWhile notDelim1 ++ (' ' :: rest) := by
          conv_lhs => rw [← List.takeWhile_append_dropWhile notDelim1 str, hd]
        constructor
        · intro heq
          exfalso
          have hcat := (hb.symm.trans heq).trans hsplit
          have h2 := List.append_cancel_left hcat
          injection h2 with h3 h4
          exact absurd h3 (by decide)
        · intro h
          rw [hp] at h
          exact Option.noConfusion h
      · have hb : parse_http_buffer str = str := by
          unfold parse_http_buffer
          rw [hd]
          exact if_neg hc
        have hp : parse_http str = none := by
          unfold parse_http
          rw [hd]
          exact if_neg hc
        simp [hb, hp]

/-- A request of 4516 bytes, more than BUFFER_SIZE can hold: a well-formed
GET for "/" followed by 4500 filler bytes. -/
def bigReq : List Char := "GET / HTTP/1.1\r\n".toList ++ List.replicate 4500 'x'

/-- `bigReq` is 4516 bytes long. -/
theorem bigReq_length : bigReq.length = 4516 := by
  have h16 : ("GET / HTTP/1.1\r\n".toList).length = 16 := by decide
  rw [bigReq, List.length_append, List.length_replicate, h16]

/-- Claim C7 counterexample.  When the pending input exceeds the buffer, the
driver parses the truncated prefix as if it were the complete request and
answers it on the route table — here with the 200 HTML response, not a 4xx
protocol error. -/
theorem c7_counterexample :
    BUFFER_SIZE ≤ bigReq.length ∧
    (handle_client_data (SocketState.mk bigReq false)).response = some resp200html ∧
    resp200html.code = 200 := by
  refine ⟨by rw [bigReq_length]; decide, ?_, rfl⟩
  have h16 : ("GET / HTTP/1.1\r\n".toList).length = 16 := by decide
  have htake : bigReq.take (BUFFER_SIZE - 1) =
      "GET / HTTP/1.1\r\n".toList ++ List.replicate 4079 'x' := by
    rw [bigReq, List.take_append_eq_append_take, h16]
    have e1 : BUFFER_SIZE - 1 - 16 = 4079 := by decide
    rw [e1, List.take_replicate]
    have h15 : ("GET / HTTP/1.1\r\n".toList).take (BUFFER_SIZE - 1) =
        "GET / HTTP/1.1\r\n".toList := List.take_of_length_le (by rw [h16]; decide)
    rw [h15]
    norm_num
  have hshape : "GET / HTTP/1.1\r\n".toList ++ List.replicate 4079 'x' =
      "GET".toList ++ ' ' :: ("/ HTTP/1.1\r\n".toList ++ List.replicate 4079 'x') := by
    have hsp : "GET / HTTP/1.1\r\n".toList =
        "GET".toList ++ ' ' :: "/ HTTP/1.1\r\n".toList := by decide
    rw [hsp, List.append_assoc]
    rfl
  have hu : (("/ HTTP/1.1\r\n".toList ++ List.replicate 4079 'x')).takeWhile notDelim2 =
      "/".toList := by
    rw [List.takeWhile_append]
    have hx : ("/ HTTP/1.1\r\n".toList).takeWhile notDelim2 = "/".toList := by decide
    rw [hx]
    have hy : ("/".toList).length = 1 := by decide
    have hz : ("/ HTTP/1.1\r\n".toList).length = 12 := by decide
    rw [hy, hz]
    norm_num
  have hparse : parse_http (bigReq.take (BUFFER_SIZE - 1)) = some ⟨"GET", "/"⟩ := by
    rw [htake, hshape, parse_http_append_space _ _ (by decide), hu]
    rfl
  have hcd : (handle_client_data (SocketState.mk bigReq false)).response =
      some (handle_request (bigReq.take (BUFFER_SIZE - 1))) := rfl
  rw [hcd]
  unfold handle_request
  rw [hparse]
  rfl

/-- Claim C7, amended: when at least BUFFER_SIZE bytes are pending, the
single read takes only the first BUFFER_SIZE - 1 bytes; that truncated
prefix is parsed and answered as if it were the complete request, the
remainder is left unread, and the connection is deregistered and closed —
there is no oversized-request error path. -/
theorem c7_oversize_truncated (s : SocketState) (h : BUFFER_SIZE ≤ s.pending.length) :
    (do_read s).1 = ReadResult.data (s.pending.take (BUFFER_SIZE - 1)) ∧
    (handle_client_data s).response = some (handle_request (s.pending.take (BUFFER_SIZE - 1))) ∧
    (do_read s).2.pending = s.pending.drop (BUFFER_SIZE - 1) ∧
    (do_read s).2.pending ≠ [] ∧
    (handle_client_data s).deregistered = true ∧
    (handle_client_data s).closed = true := by
  have hne : s.pending.isEmpty = false := by
    cases hp : s.pending with
    | nil =>
      rw [hp] at h
      simp [BUFFER_SIZE] at h
    | cons a l => rfl
  have hr : (do_read s).1 = ReadResult.data (s.pending.take (BUFFER_SIZE - 1)) := by
    simp [do_read, hne]
  have hs : (do_read s).2.pending = s.pending.drop (BUFFER_SIZE - 1) := by
    simp [do_read, hne]
  have hdrop : (do_read s).2.pending ≠ [] := by
    rw [hs]
    have hlen : 0 < (s.pending.drop (BUFFER_SIZE - 1)).length := by
      rw [List.length_drop]
      simp [BUFFER_SIZE] at h ⊢
      omega
    exact List.ne_nil_of_length_pos hlen
  refine ⟨hr, ?_, hs, hdrop, ?_, ?_⟩ <;> simp [handle_client_data, hr]

/-- Witness for `c7_oversize_truncated` at the concrete 4516-byte request. -/
theorem c7_oversize_truncated_witness :
    (do_read (SocketState.mk bigReq false)).1 =
      ReadResult.data (bigReq.take (BUFFER_SIZE - 1)) ∧
    (handle_client_data (SocketState.mk bigReq false)).response =
      some (handle_request (bigReq.take (BUFFER_SIZE - 1))) ∧
    (do_read (SocketState.mk bigReq false)).2.pending = bigReq.drop (BUFFER_SIZE - 1) ∧
    (do_read (SocketState.mk bigReq false)).2.pending ≠ [] ∧
    (handle_client_data (SocketState.mk bigReq false)).deregistered = true ∧
    (handle_client_data (SocketState.mk bigReq false)).closed = true :=
  c7_oversize_truncated (SocketState.mk bigReq false)
    (by show BUFFER_SIZE ≤ bigReq.length; rw [bigReq_length]; decide)

/-- Witness for `c8_parser_effects`: determinism at a concrete buffer, and
the unchanged-iff-failure equivalence at the space-free buffer `GARBAGE`. -/
theorem c8_parser_effects_witness :
    parse_http ("GET /".toList) = parse_http ("GET /".toList) ∧
    (parse_http_buffer ("GARBAGE".toList) = "GARBAGE".toList ↔
      parse_http ("GARBAGE".toList) = none) :=
  ⟨c8_parser_effects.1 ("GET /".toList) ("GET /".toList) rfl,
   c8_parser_effects.2 ("GARBAGE".toList)⟩

/-- A trace with no `close` of `fd` trivially satisfies the
deregister-before-close discipline for `fd`. -/
theorem dbc_of_no_close (ops : List Op) (fd : Nat)
    (h : ∀ op ∈ ops, op ≠ Op.closeFd fd) : deregBeforeClose ops fd := by
  intro j hj
  exact absurd rfl (h _ (List.get?_mem hj))

/-- A delete-then-close pair for any fd satisfies the discipline. -/
theorem dbc_pair (fd fd2 : Nat) :
    deregBeforeClose [Op.deregister fd2, Op.closeFd fd2] fd := by
  intro j hj
  match j with
  | 0 => simp at hj
  | 1 =>
    refine ⟨0, Nat.zero_lt_one, ?_⟩
    simp at hj
    simp [hj]
  | n + 2 => simp at hj

/-- A write, delete, close sequence for any fd satisfies the discipline. -/
theorem dbc_triple (fd fd2 : Nat) (r : HttpResponse) :
    deregBeforeClose [Op.writeResp fd2 r, Op.deregister fd2, Op.closeFd fd2] fd := by
  intro j hj
  match j with
  | 0 => simp at hj
  | 1 => simp at hj
  | 2 =>
    refine ⟨1, by omega, ?_⟩
    simp at hj
    simp [hj]
  | n + 3 => simp at hj

/-- The accept loop closes only fds of the burst it was given. -/
theorem acceptAll_no_close (p : List AcceptedConn) :
    ∀ (st : LoopState) (fd : Nat), (∀ c ∈ p, c.fd ≠ fd) →
      ∀ op ∈ (acceptAll st p).2, op ≠ Op.closeFd fd := by
  induction p with
  | nil =>
    intro st fd _ op hop
    simp [acceptAll] at hop
  | cons c cs ih =>
    intro st fd h op hop
    have hd : c.fd ≠ fd := h c (List.mem_cons_self c cs)
    have htl : ∀ d ∈ cs, d.fd ≠ fd := fun d hdm => h d (List.mem_cons_of_mem c hdm)
    simp only [acceptAll, List.mem_append] at hop
    rcases hop with h1 | h2
    · unfold acceptOne at h1
      by_cases hnb : c.nonblockOk
      · by_cases hreg : c.registerOk
        · simp [hnb, hreg] at h1
        · simp [hnb, hreg] at h1
          simp [h1, hd]
      · simp [hnb] at h1
        simp [h1, hd]
    · exact ih (acceptOne st c).1 fd htl op h2

/-- Membership in the registry after an accept burst: either the fd was
already registered or it is a successfully registered fd of the burst. -/
theorem acceptAll_registered (p : List AcceptedConn) :
    ∀ (st : LoopState) (fd : Nat), fd ∈ ((acceptAll st p).1).registered →
      fd ∈ st.registered ∨ fd ∈ successFds p := by
  induction p with
  | nil =>
    intro st fd h
    exact Or.inl (by simpa [acceptAll] using h)
  | cons c cs ih =>
    intro st fd h
    have h2 := ih (acceptOne st c).1 fd (by simpa [acceptAll] using h)
    rcases h2 with h2 | h2
    · unfold acceptOne at h2
      by_cases hnb : c.nonblockOk
      · by_cases hreg : c.registerOk
        · simp [hnb, hreg, Finset.mem_insert] at h2
          rcases h2 with h2 | h2
          · exact Or.inr (by simp [successFds, List.filter_cons, hnb, hreg, h2])
          · exact Or.inl h2
        · exact Or.inl (by simpa [hnb, hreg] using h2)
      · exact Or.inl (by simpa [hnb] using h2)
    · refine Or.inr ?_
      simp only [successFds, List.filter_cons] at h2 ⊢
      by_cases hok : c.nonblockOk && c.registerOk <;> simp [hok] at h2 ⊢ <;> tauto

/-- The accept loop never touches the server registration or the server fd. -/
theorem acceptAll_server (p : List AcceptedConn) :
    ∀ (st : LoopState),
      ((acceptAll st p).1).serverRegistered = st.serverRegistered ∧
      ((acceptAll st p).1).serverFd = st.serverFd := by
  induction p with
  | nil => intro st; exact ⟨rfl, rfl⟩
  | cons c cs ih =>
    intro st
    have h2 := ih (acceptOne st c).1
    have h1 : ((acceptOne st c).1).serverRegistered = st.serverRegistered ∧
        ((acceptOne st c).1).serverFd = st.serverFd := by
      unfold acceptOne
      by_cases hnb : c.nonblockOk
      · by_cases hreg : c.registerOk <;> simp [hnb, hreg]
      · simp [hnb]
    exact ⟨h2.1.trans h1.1, h2.2.trans h1.2⟩

/-- The accept loop preserves invariant I1 (registry = live connections):
each step inserts the fd into both sets or into neither. -/
theorem acceptAll_I1 (p : List AcceptedConn) :
    ∀ (st : LoopState), st.registered = st.openConns →
      ((acceptAll st p).1).registered = ((acceptAll st p).1).openConns := by
  induction p with
  | nil => intro st h; exact h
  | cons c cs ih =>
    intro st h
    refine ih (acceptOne st c).1 ?_
    unfold acceptOne
    by_cases hnb : c.nonblockOk
    · by_cases hreg : c.registerOk <;> simp [hnb, hreg, h]
    · simp [hnb, h]

/-- Membership in the registry after one dispatch: the fd was already
registered and the event was not the one closing it, or the fd was
successfully registered by an accept burst of this event. -/
theorem loopStep_registered (st : LoopState) (e : LoopEvent) (fd : Nat)
    (hfd : fd ∈ ((loopStep st e).1).registered) :
    (fd ∈ st.registered ∧ isClosing fd (some e) = false) ∨ fd ∈ acceptedAt (some e) := by
  cases e with
  | serverEvent flags pending =>
    by_cases herr : flags.err
    · refine Or.inl ⟨?_, rfl⟩
      simpa [loopStep, herr] using hfd
    · have h2 := acceptAll_registered pending st fd (by simpa [loopStep, herr] using hfd)
      rcases h2 with h2 | h2
      · exact Or.inl ⟨h2, rfl⟩
      · exact Or.inr (by simpa [acceptedAt, acceptedFds] using h2)
  | clientEvent fd2 flags sock =>
    by_cases herr : flags.err
    · have h2 : fd ∈ st.registered.erase fd2 := by simpa [loopStep, herr] using hfd
      have h3 := Finset.mem_of_mem_erase h2
      have h4 : fd ≠ fd2 := Finset.ne_of_mem_erase h2
      refine Or.inl ⟨h3, ?_⟩
      simp [isClosing, Ne.symm h4]
    · by_cases hread : flags.readable
      · have h2 : fd ∈ st.registered.erase fd2 := by simpa [loopStep, herr, hread] using hfd
        have h3 := Finset.mem_of_mem_erase h2
        have h4 : fd ≠ fd2 := Finset.ne_of_mem_erase h2
        refine Or.inl ⟨h3, ?_⟩
        simp [isClosing, Ne.symm h4]
      · have h2 : fd ∈ st.registered := by simpa [loopStep, herr, hread] using hfd
        refine Or.inl ⟨h2, ?_⟩
        simp [isClosing, herr, hread]

/-- One dispatch without a server error leaves the server registration and
the server fd unchanged. -/
theorem loopStep_server (st : LoopState) (e : LoopEvent) (h : srvErrEvent e = false) :
    ((loopStep st e).1).serverRegistered = st.serverRegistered ∧
    ((loopStep st e).1).serverFd = st.serverFd := by
  cases e with
  | serverEvent flags pending =>
    have herr : flags.err = false := by simpa [srvErrEvent] using h
    simpa [loopStep, herr] using acceptAll_server pending st
  | clientEvent fd2 flags sock =>
    by_cases herr : flags.err
    · simp [loopStep, herr]
    · by_cases hread : flags.readable <;> simp [loopStep, herr, hread]

/-- One dispatch preserves invariant I1: the registry and the set of live
connections change in lockstep. -/
theorem loopStep_I1 (st : LoopState) (e : LoopEvent) (h : st.registered = st.openConns) :
    ((loopStep st e).1).registered = ((loopStep st e).1).openConns := by
  cases e with
  | serverEvent flags pending =>
    by_cases herr : flags.err
    · simpa [loopStep, herr] using h
    · simpa [loopStep, herr] using acceptAll_I1 pending st h
  | clientEvent fd2 flags sock =>
    by_cases herr : flags.err
    · simp [loopStep, herr, h]
    · by_cases hread : flags.readable <;> simp [loopStep, herr, hread, h]

/-- Each dispatch deregisters a registered client fd before closing it,
provided the accept burst only carries fresh fds (as `accept` guarantees:
a returned fd is never one that is still open and registered). -/
theorem loopStep_dbc (st : LoopState) (e : LoopEvent)
    (hfresh : ∀ flags p, e = LoopEvent.serverEvent flags p → ∀ c ∈ p, c.fd ∉ st.registered)
    (fd : Nat) (hfd : fd ∈ st.registered) : deregBeforeClose ((loopStep st e).2) fd := by
  cases e with
  | serverEvent flags pending =>
    by_cases herr : flags.err
    · have h2 : (loopStep st (LoopEvent.serverEvent flags pending)).2 =
          [Op.deregister st.serverFd, Op.closeFd st.serverFd] := by
        simp [loopStep, herr]
      rw [h2]
      exact dbc_pair fd st.serverFd
    · have h2 : (loopStep st (LoopEvent.serverEvent flags pending)).2 =
          (acceptAll st pending).2 := by
        simp [loopStep, herr]
      rw [h2]
      refine dbc_of_no_close _ fd (acceptAll_no_close pending st fd ?_)
      intro c hc hceq
      exact hfresh flags pending rfl c hc (hceq ▸ hfd)
  | clientEvent fd2 flags sock =>
    by_cases herr : flags.err
    · have h2 : (loopStep st (LoopEvent.clientEvent fd2 flags sock)).2 =
          [Op.deregister fd2, Op.closeFd fd2] := by
        simp [loopStep, herr]
      rw [h2]
      exact dbc_pair fd fd2
    · by_cases hread : flags.readable
      · have h2 : (loopStep st (LoopEvent.clientEvent fd2 flags sock)).2 =
            clientTrace fd2 sock := by
          simp [loopStep, herr, hread]
        rw [h2]
        unfold clientTrace
        cases (do_read sock).1 with
        | data bytes => exact dbc_triple fd fd2 (handle_request bytes)
        | eof => exact dbc_pair fd fd2
        | wouldBlock => exact dbc_pair fd fd2
        | err => exact dbc_pair fd fd2
      · have h2 : (loopStep st (LoopEvent.clientEvent fd2 flags sock)).2 = [] := by
          simp [loopStep, herr, hread]
        rw [h2]
        intro j hj
        simp at hj

/-- A run preserves invariant I1. -/
theorem runLoop_I1 : ∀ (es : List LoopEvent) (st : LoopState),
    st.registered = st.openConns →
    ((runLoop st es).1).registered = ((runLoop st es).1).openConns
  | [], _, h => h
  | e :: es, st, h => runLoop_I1 es (loopStep st e).1 (loopStep_I1 st e h)

/-- A run without server-error events preserves the server registration. -/
theorem runLoop_server : ∀ (es : List LoopEvent) (st : LoopState),
    (∀ e ∈ es, srvErrEvent e = false) →
    ((runLoop st es).1).serverRegistered = st.serverRegistered
  | [], _, _ => rfl
  | e :: es, st, h =>
    (runLoop_server es (loopStep st e).1
        (fun x hx => h x (List.mem_cons_of_mem e hx))).trans
      (loopStep_server st e (h e (List.mem_cons_self e es))).1

/-- If every fd registered at the start is retired by some event of the
schedule, and every fd registered by an accept burst is retired by a later
event, then the registry is empty at the end of the run. -/
theorem runLoop_registered_empty : ∀ (es : List LoopEvent) (st : LoopState),
    (∀ fd ∈ st.registered, ∃ k, k < es.length ∧ isClosing fd (es.get? k) = true) →
    (∀ k, k < es.length → ∀ fd, fd ∈ acceptedAt (es.get? k) →
       ∃ j, j < es.length ∧ k < j ∧ isClosing fd (es.get? j) = true) →
    ((runLoop st es).1).registered = ∅
  | [], st, h1, _ => by
    refine Finset.eq_empty_iff_forall_not_mem.mpr fun fd hfd => ?_
    obtain ⟨k, hk, _⟩ := h1 fd hfd
    simp at hk
  | e :: es, st, h1, h2 => by
    have key : ((runLoop st (e :: es)).1) = ((runLoop (loopStep st e).1 es).1) := rfl
    rw [key]
    refine runLoop_registered_empty es (loopStep st e).1 ?_ ?_
    · intro fd hfd
      rcases loopStep_registered st e fd hfd with ⟨hin, hcl⟩ | hacc
      · obtain ⟨k, hk, hcls⟩ := h1 fd hin
        match k, hk, hcls with
        | 0, _, hcls =>
          rw [List.get?_cons_zero] at hcls
          rw [hcl] at hcls
          exact absurd hcls (by simp)
        | k + 1, hk, hcls =>
          refine ⟨k, ?_, ?_⟩
          · simpa using Nat.lt_of_succ_lt_succ hk
          · simpa using hcls
      · have hz : fd ∈ acceptedAt ((e :: es).get? 0) := by
          simpa using hacc
        obtain ⟨j, hjlen, hjpos, hcls⟩ := h2 0 (by simp) fd hz
        match j, hjlen, hjpos, hcls with
        | j + 1, hjlen, _, hcls =>
          refine ⟨j, ?_, ?_⟩
          · simpa using Nat.lt_of_succ_lt_succ hjlen
          · simpa using hcls
    · intro k hk fd hfd
      have hz : fd ∈ acceptedAt ((e :: es).get? (k + 1)) := by
        simpa using hfd
      obtain ⟨j, hjlen, hkj, hcls⟩ :=
        h2 (k + 1) (by simpa using Nat.succ_lt_succ hk) fd hz
      match j, hjlen, hkj, hcls with
      | j + 1, hjlen, hkj, hcls =>
        refine ⟨j, ?_, ?_, ?_⟩
        · simpa using Nat.lt_of_succ_lt_succ hjlen
        · exact Nat.lt_of_succ_lt_succ hkj
        · simpa using hcls

/-- Claim C3: (i) whenever a dispatch closes a live client handle, the
`epoll_ctl` delete precedes the `close` in its operation trace (given the
freshness of accepted fds, which the kernel guarantees while the fd is
open); (ii) every dispatch preserves invariant I1, the registry and the set
of live connections staying equal; (iii) from the initial state, if every
successfully accepted fd is retired by a later client event and the
listening fd never takes an error event, the run ends with an empty client
registry, no live connections, and the listening handle still registered. -/
theorem c3_registry_discipline :
    (∀ (st : LoopState) (e : LoopEvent),
       (∀ flags p, e = LoopEvent.serverEvent flags p → ∀ c ∈ p, c.fd ∉ st.registered) →
       ∀ fd ∈ st.registered, deregBeforeClose ((loopStep st e).2) fd) ∧
    (∀ (st : LoopState) (e : LoopEvent), st.registered = st.openConns →
       ((loopStep st e).1).registered = ((loopStep st e).1).openConns) ∧
    (∀ (sfd : Nat) (es : List LoopEvent),
       (∀ k, k < es.length → ∀ fd, fd ∈ acceptedAt (es.get? k) →
          ∃ j, j < es.length ∧ k < j ∧ isClosing fd (es.get? j) = true) →
       (∀ e ∈ es, srvErrEvent e = false) →
       ((runLoop (initState sfd) es).1).registered = ∅ ∧
       ((runLoop (initState sfd) es).1).openConns = ∅ ∧
       ((runLoop (initState sfd) es).1).serverRegistered = true) := by
  refine ⟨loopStep_dbc, loopStep_I1, ?_⟩
  intro sfd es h2 hsrv
  have hreg : ((runLoop (initState sfd) es).1).registered = ∅ := by
    refine runLoop_registered_empty es (initState sfd) ?_ h2
    intro fd hfd
    simp [initState] at hfd
  have hI1 := runLoop_I1 es (initState sfd) rfl
  refine ⟨hreg, ?_, ?_⟩
  · rw [← hI1]
    exact hreg
  · exact (runLoop_server es (initState sfd) hsrv).trans rfl

/-- The client socket used in the C3 witness schedule. -/
def exSock : SocketState := SocketState.mk ("GET / HTTP/1.1\r\n\r\n".toList) false

/-- Witness schedule: one accept burst registering fd 5, then a Readable
event on fd 5 that answers it and retires it. -/
def exEvents : List LoopEvent :=
  [LoopEvent.serverEvent (EventFlags.mk false true) [AcceptedConn.mk 5 true true],
   LoopEvent.clientEvent 5 (EventFlags.mk false true) exSock]

/-- Witness state for the per-dispatch parts of `c3_registry_discipline`:
fd 5 registered and live. -/
def exState : LoopState := LoopState.mk 3 true {5} {5}

/-- Witness for `c3_registry_discipline`: the discipline and the invariants
instantiated on the concrete schedule `exEvents` and state `exState`. -/
theorem c3_registry_discipline_witness :
    deregBeforeClose
      ((loopStep exState (LoopEvent.clientEvent 5 (EventFlags.mk false true) exSock)).2) 5 ∧
    ((loopStep exState (LoopEvent.clientEvent 5 (EventFlags.mk false true) exSock)).1).registered =
      ((loopStep exState (LoopEvent.clientEvent 5 (EventFlags.mk false true) exSock)).1).openConns ∧
    (((runLoop (initState 3) exEvents).1).registered = ∅ ∧
     ((runLoop (initState 3) exEvents).1).openConns = ∅ ∧
     ((runLoop (initState 3) exEvents).1).serverRegistered = true) :=
  ⟨c3_registry_discipline.1 exState (LoopEvent.clientEvent 5 (EventFlags.mk false true) exSock)
      (fun flags p h => LoopEvent.noConfusion h) 5 (by simp [exState]),
   c3_registry_discipline.2.1 exState (LoopEvent.clientEvent 5 (EventFlags.mk false true) exSock)
      rfl,
   c3_registry_discipline.2.2 3 exEvents
      (by
        intro k hk fd hfd
        match k, hk with
        | 0, _ =>
          have hfd5 : fd = 5 := by
            simpa [exEvents, acceptedAt, acceptedFds, successFds] using hfd
          subst hfd5
          exact ⟨1, by simp [exEvents], Nat.zero_lt_one, by simp [exEvents, isClosing]⟩
        | 1, _ =>
          exact absurd hfd (by simp [exEvents, acceptedAt, acceptedFds])
        | n + 2, hk => exact absurd hk (by simp [exEvents]))
      (by
        intro e he
        simp only [exEvents, List.mem_cons, List.mem_singleton] at he
        rcases he with he | he | he
        · rw [he]; rfl
        · rw [he]; rfl
        · simp at he)⟩
